import Mathlib

/-!
Verification development for the BLASTNCBI5 repository (app.py, services.py,
database.py): a Flask web app whose background job runner drives, per
accession, fetch-FASTA → submit-BLAST → poll-until-terminal → parse-top-hit →
persist, writing per-accession result rows and job progress to a SQLite store.

The definitions below are a shallow embedding of that code.  Remote HTTP calls
are modelled as oracles (`Except String α`: `ok` for a successful response,
`error e` for a raised exception whose `str(e)` is `e`).  Time is discrete:
one unit per second of the Python code, so each poll cycle sleeps 8 units.
Non-terminating loops are modelled with explicit fuel; `none` means the fuel
ran out (the Python loop would still be running).
-/

namespace BlastApp

/-! ## services.py: wait_for_blast (lines 45-88)

Each status check (`CMD=Get, FORMAT_OBJECT=SearchInfo`) is classified from the
response text: `Status=READY` with `ThereAreHits=yes`, `Status=READY` without
hits, `Status=FAILED`, or anything else — where "anything else" covers both an
unrecognized body and a raised request exception, since the `except` branch
just continues the loop exactly like an unrecognized body does. -/

/-- Classification of one status-service response, as `wait_for_blast` reads
it: `ready hits` for `Status=READY` (with/without `ThereAreHits=yes`),
`failed` for `Status=FAILED`, `other` for any other text or a swallowed
request exception. -/
inductive PollResp
  | ready (hits : Bool)
  | failed
  | other
deriving DecidableEq

/-- The four values `wait_for_blast` can return. -/
inductive BlastStatus
  | READY
  | NO_HITS
  | FAILED
  | TIMEOUT
deriving DecidableEq

/-- Modelled text of the Python 3 `TypeError` raised by `None > 0` when
`wait_for_blast` receives `max_wait_time=None` (services.py line 59). -/
def typeErrorMsg : String := "unsupported comparison between NoneType and int"

/-- Outcome of one call to `wait_for_blast`: either it returned a
`BlastStatus` (with the elapsed wait, in time units, at the moment of
return), or it raised an exception that escapes the function. -/
inductive WaitResult
  | finished (s : BlastStatus) (elapsed : Nat)
  | raised (msg : String)
deriving DecidableEq

/-- One iteration `k` of the `while True` loop of `wait_for_blast`
(services.py lines 55-88): `elapsed = 8 * k` (k sleeps of 8 units so far);
first the timeout test `max_wait_time > 0 and elapsed > max_wait_time`
(raises `TypeError` when `max_wait_time` is `None`, returns `TIMEOUT` when it
holds), then `time.sleep(8)` and the status request `svc k`, classified as in
`PollResp`; a non-terminal response continues the loop.  `fuel` bounds the
number of modelled iterations; `none` means the loop is still running. -/
def waitForBlastAux (svc : Nat → PollResp) (maxWait : Option Nat) :
    Nat → Nat → Option WaitResult
  | _, 0 => none
  | k, fuel + 1 =>
    match maxWait with
    | none => some (.raised typeErrorMsg)
    | some m =>
      if 0 < m ∧ m < 8 * k then some (.finished .TIMEOUT (8 * k))
      else
        match svc k with
        | .ready true => some (.finished .READY (8 * (k + 1)))
        | .ready false => some (.finished .NO_HITS (8 * (k + 1)))
        | .failed => some (.finished .FAILED (8 * (k + 1)))
        | .other => waitForBlastAux svc maxWait (k + 1) fuel

/-- `wait_for_blast rid max_wait_time` (services.py line 45): run the poll
loop from iteration 0.  `svc` is the status service's response at each
attempt, `maxWait` the `max_wait_time` argument (`none` models Python
`None`). -/
def wait_for_blast (svc : Nat → PollResp) (maxWait : Option Nat) (fuel : Nat) :
    Option WaitResult :=
  waitForBlastAux svc maxWait 0 fuel

/-! ## services.py: parse_top_hit (lines 99-123)

The XML payload is embedded as an element tree (the output of a successful
`ET.fromstring`); a malformed document, where `ET.fromstring` raises, is the
`error` case of the `fetchResult` oracle below. -/

/-- An XML element: tag, optional text content, child elements. -/
inductive Element
  | mk (tag : String) (text : Option String) (children : List Element)

/-- Tag of an element. -/
def Element.tag : Element → String
  | .mk t _ _ => t

/-- Text content of an element (`None` when the element has no text). -/
def Element.text : Element → Option String
  | .mk _ tx _ => tx

/-- Child elements, in document order. -/
def Element.children : Element → List Element
  | .mk _ _ cs => cs

mutual

/-- One subtree of the `find(".//" + tag)` search: the element itself if its
tag matches, else the first match among its descendants. -/
def findFirstEl (tag : String) : Element → Option Element
  | .mk t tx cs => if t = tag then some (.mk t tx cs) else findFirst tag cs

/-- `root.find(".//" + tag)` over a list of subtrees: first element with the
given tag in document (preorder) order, searching every depth. -/
def findFirst (tag : String) : List Element → Option Element
  | [] => none
  | e :: es =>
    match findFirstEl tag e with
    | some r => some r
    | none => findFirst tag es

end

/-- `e.find(tag)` for a plain tag: first direct child with that tag. -/
def findChild (tag : String) (e : Element) : Option Element :=
  e.children.find? (fun c => c.tag == tag)

/-- `e.findtext(tag, default=dflt)`: text of the first direct child with that
tag (empty string when the child has no text), `dflt` when there is no such
child. -/
def findText (e : Element) (tag dflt : String) : String :=
  match findChild tag e with
  | none => dflt
  | some c => c.text.getD ""

/-- `re.search(r"\x5b([^\x5d]+)\x5d", s)` — first bracketed substring: scan
left to right; at a literal opening bracket take the maximal nonempty run of
characters that are not a closing bracket, and succeed if a closing bracket
follows; otherwise resume the scan one character later. -/
def extractBracket : List Char → Option String
  | [] => none
  | '[' :: rest =>
    let content := rest.takeWhile (fun c => c ≠ ']')
    if 0 < content.length ∧ content.length < rest.length then
      some content.asString
    else extractBracket rest
  | _ :: rest => extractBracket rest

/-- `parse_top_hit` (services.py lines 99-123) on an already parsed document:
first `Hit` descendant or all-"NA"; `Hit_accession` text (default "NA");
species = first bracketed substring of `Hit_def` (default "NA"); bit score
and e-value from the first `Hsp` descendant of the hit ("NA" when absent). -/
def parse_top_hit (root : Element) : String × String × String × String :=
  match findFirst "Hit" root.children with
  | none => ("NA", "NA", "NA", "NA")
  | some hit =>
    let accession := findText hit "Hit_accession" "NA"
    let hitDef := findText hit "Hit_def" ""
    let species := (extractBracket hitDef.toList).getD "NA"
    match findFirst "Hsp" hit.children with
    | none => (accession, species, "NA", "NA")
    | some hsp =>
      (accession, species, findText hsp "Hsp_bit-score" "NA",
        findText hsp "Hsp_evalue" "NA")

/-! ## services.py: fetch_gene_symbol (lines 126-144) -/

/-- The literal `/gene="` that the gene-symbol regex looks for. -/
def geneLit : List Char := ['/', 'g', 'e', 'n', 'e', '=', '"']

/-- `re.search` for `/gene="([^"]+)"`: first occurrence of the literal
followed by a nonempty run of non-quote characters and a closing quote. -/
def extractGene : List Char → Option String
  | [] => none
  | c :: rest =>
    if (c :: rest).take 7 = geneLit then
      let tail := (c :: rest).drop 7
      let content := tail.takeWhile (fun ch => ch ≠ '"')
      if 0 < content.length ∧ content.length < tail.length then
        some content.asString
      else extractGene rest
    else extractGene rest

/-- `fetch_gene_symbol` (services.py lines 126-144): the whole body sits in a
`try` whose `except` returns "NA", so the function is total; `resp` is the
HTTP oracle (`error` = any raised exception, including `raise_for_status`).
On a successful response, the first `/gene="..."` capture, else "NA". -/
def fetch_gene_symbol (resp : Except String String) : String :=
  match resp with
  | .error _ => "NA"
  | .ok text =>
    match extractGene text.toList with
    | some g => g
    | none => "NA"

/-! ## app.py: run_blast_job (lines 107-189)

The job store (SQLite) is modelled as the job row plus the ordered list of
result rows for this job; each `conn.commit()` of the runner is one atomic
write, whose success is given by a write mask (`false` = the commit raised,
matching the logged-and-swallowed `except` branches).  Write indices: 0 for
the initial RUNNING/progress-0 write, `i + 1` for accession `i`'s combined
result-insert + progress write (one commit, app.py lines 166-177), and
`total + 1` for the final DONE/100 write. -/

/-- One result row's five annotation fields, as `run_blast_job` computes
them before the INSERT (app.py lines 138-164). -/
structure RecFields where
  top_hit : String
  gene : String
  species : String
  bit_score : String
  evalue : String
deriving DecidableEq

/-- The record written by the `except` branch (app.py lines 159-164):
`top_hit = gene = "ERROR"`, `species = str(e)`, scores "NA". -/
def errRec (e : String) : RecFields :=
  ⟨"ERROR", "ERROR", e, "NA", "NA"⟩

/-- The record for `status == "NO_HITS"` (app.py line 152). -/
def noHitRec : RecFields :=
  ⟨"No hit", "No hit", "No hit", "No hit", "No hit"⟩

/-- The record for `status == "TIMEOUT"` (app.py lines 153-156). -/
def timeoutRec : RecFields :=
  ⟨"TIMEOUT", "TIMEOUT", "BLAST search timed out", "NA", "NA"⟩

/-- The record for the `else` branch, reached for `FAILED` or any other
status (app.py lines 157-158). -/
def naRec : RecFields :=
  ⟨"NA", "NA", "NA", "NA", "NA"⟩

/-- The remote-service oracle for one accession's pipeline: outcome of
`fetch_fasta` (ok FASTA text / raised), `submit_blast` (ok RID / raised), the
status service's responses driving `wait_for_blast`, the outcome of
`fetch_result` followed by `ET.fromstring` (ok parsed document root / raised
request error or `ParseError`), and the HTTP response feeding
`fetch_gene_symbol`. -/
structure AccEnv where
  fetchFasta : Except String String
  submitBlast : Except String String
  pollSvc : Nat → PollResp
  fetchResult : Except String Element
  geneResp : Except String String

/-- app.py line 134: `wait_timeout = None if timeout == 0 else timeout`. -/
def waitTimeoutArg (timeout : Nat) : Option Nat :=
  if timeout = 0 then none else some timeout

/-- The body of `run_blast_job`'s per-accession `try` (app.py lines 125-164):
fetch, submit, poll, then branch on the status; any raised exception (from
fetch, submit, or the poll loop itself) is caught and becomes `errRec` of its
text.  The XML-file save (lines 144-150) has no effect on the record and is
not modelled.  `none` = the poll loop is still running after `fuel` cycles. -/
def processAccession (wt : Option Nat) (fuel : Nat) (env : AccEnv) :
    Option RecFields :=
  match env.fetchFasta with
  | .error e => some (errRec e)
  | .ok _ =>
    match env.submitBlast with
    | .error e => some (errRec e)
    | .ok _ =>
      match wait_for_blast env.pollSvc wt fuel with
      | none => none
      | some (.raised msg) => some (errRec msg)
      | some (.finished st _) =>
        match st with
        | .READY =>
          match env.fetchResult with
          | .error e => some (errRec e)
          | .ok root =>
            let (top, species, bit, ev) := parse_top_hit root
            some ⟨top, fetch_gene_symbol env.geneResp, species, bit, ev⟩
        | .NO_HITS => some noHitRec
        | .TIMEOUT => some timeoutRec
        | .FAILED => some naRec

/-- Job status as stored in the `jobs` table ('RUNNING' / 'DONE'; the schema
default at creation is 'RUNNING', database.py line 32). -/
inductive JobStatus
  | RUNNING
  | DONE
deriving DecidableEq

/-- The mutable columns of this job's row in the `jobs` table. -/
structure JobRow where
  status : JobStatus
  progress : Nat
deriving DecidableEq

/-- The job-store state visible to readers: the job row and this job's rows
of the `results` table, in insertion order, keyed by accession. -/
structure DbState where
  job : JobRow
  results : List (String × RecFields)
deriving DecidableEq

/-- app.py line 173: `progress = int((i + 1) / total * 100)`, modelled as
exact floor division. -/
def pRec (n total : Nat) : Nat := n * 100 / total

/-- The accession loop and final write of `run_blast_job` (app.py lines
123-189), from accession index `i` in state `s`, returning the list of
states after each subsequent commit (a failed commit leaves the state
unchanged).  The final write sets status DONE and progress 100 (line 184). -/
def runJobLoop (wmask : Nat → Bool) (wt : Option Nat) (fuel total : Nat) :
    List (String × AccEnv) → Nat → DbState → Option (List DbState)
  | [], _, s =>
    let s2 := if wmask (total + 1) then DbState.mk ⟨.DONE, 100⟩ s.results else s
    some [s2]
  | (acc, env) :: rest, i, s =>
    match processAccession wt fuel env with
    | none => none
    | some r =>
      let s2 :=
        if wmask (i + 1) then
          DbState.mk ⟨s.job.status, pRec (i + 1) total⟩ (s.results ++ [(acc, r)])
        else s
      (runJobLoop wmask wt fuel total rest (i + 1) s2).map (fun tr => s2 :: tr)

/-- `run_blast_job(job_id, accessions, taxid, timeout)` (app.py lines
107-189) as a job-store trace: the job row starts at the creation default
(RUNNING, progress 0 — app.py line 212 insert with schema defaults); the
runner first re-writes RUNNING/0 (write 0; if that commit fails the runner
returns at once, line 121), then runs the loop.  The returned list is every
job-store state over the job's lifetime, in order; `none` = some accession's
poll loop never finished within `fuel`. -/
def run_blast_job (wmask : Nat → Bool) (timeout : Nat)
    (pairs : List (String × AccEnv)) (fuel : Nat) : Option (List DbState) :=
  let s0 : DbState := ⟨⟨.RUNNING, 0⟩, []⟩
  if wmask 0 then
    (runJobLoop wmask (waitTimeoutArg timeout) fuel pairs.length pairs 0 s0).map
      (fun tr => s0 :: s0 :: tr)
  else some [s0]

/-! ## app.py: download_csv (lines 246-266) and the read endpoints -/

/-- One row of the `results` table as the readers see it: every column is
nullable TEXT (database.py lines 39-51). -/
structure CsvRow where
  accession : Option String
  top_hit : Option String
  gene : Option String
  species : Option String
  bit_score : Option String
  evalue : Option String
deriving DecidableEq

/-- app.py line 260: `str(r[h]) if r[h] is not None else "NA"`. -/
def renderField : Option String → String
  | none => "NA"
  | some s => s

/-- One data line of `download_csv` (app.py lines 258-261): the six rendered
column values joined with commas — no quoting or escaping — plus newline. -/
def csvLine (r : CsvRow) : String :=
  String.intercalate ","
    [renderField r.accession, renderField r.top_hit, renderField r.gene,
      renderField r.species, renderField r.bit_score, renderField r.evalue]
    ++ "\n"

/-- The header row (app.py line 254). -/
def csvHeader : String := "accession,top_hit,gene,species,bit_score,evalue"

/-- The full body streamed by `download_csv` (app.py lines 256-261): header
line, then one line per stored row. -/
def download_csv (rows : List CsvRow) : String :=
  csvHeader ++ "\n" ++ String.join (rows.map csvLine)

/-- Splitting a line at commas, the way a CSV consumer reads back what
`download_csv` joined with `",".join(values)`: the comma-separated fields of
the character list. -/
def splitCommas : List Char → List (List Char)
  | [] => [[]]
  | ',' :: rest => [] :: splitCommas rest
  | c :: rest =>
    match splitCommas rest with
    | [] => [[c]]
    | f :: fs => (c :: f) :: fs

/-- The `results`-table row produced by the runner's INSERT (app.py lines
169-172): the accession and the five computed fields, all non-null. -/
def toCsvRow (acc : String) (r : RecFields) : CsvRow :=
  ⟨some acc, some r.top_hit, some r.gene, some r.species, some r.bit_score,
    some r.evalue⟩

/-- The Flask session as the app uses it: `session.get("user_id")` and
`session.get("is_admin", 0)`; `userId = none` models a caller who is not
logged in. -/
structure SessionState where
  userId : Option Nat
  isAdmin : Bool

/-- The store as seen by the read endpoints: job row by job id, result rows
by job id. -/
structure Db where
  jobs : String → Option JobRow
  results : String → List CsvRow

/-- Rendering of the `status` column's TEXT value. -/
def statusText : JobStatus → String
  | .RUNNING => "RUNNING"
  | .DONE => "DONE"

/-- An HTTP response of the three read endpoints. -/
inductive HttpResp
  | json (code : Nat) (body : List (String × String))
  | page (rows : List CsvRow) (jobId : String)
  | csv (body : String) (filename : String)
deriving DecidableEq

/-- `GET /status/<job_id>` (app.py lines 226-235).  The handler takes the
caller's session explicitly here to make visible that its body never reads
it: the route has no login or ownership check. -/
def statusEndpoint : SessionState → Db → String → HttpResp :=
  fun _ db jobId =>
    match db.jobs jobId with
    | none => .json 404 [("error", "Invalid job ID")]
    | some row =>
      .json 200 [("progress", toString row.progress), ("status", statusText row.status)]

/-- `GET /results/<job_id>` (app.py lines 237-244): renders the job's result
rows; no session read, no auth check. -/
def resultsEndpoint : SessionState → Db → String → HttpResp :=
  fun _ db jobId => .page (db.results jobId) jobId

/-- `GET /download_csv/<job_id>` (app.py lines 246-266): streams the CSV; no
session read, no auth check. -/
def downloadCsvEndpoint : SessionState → Db → String → HttpResp :=
  fun _ db jobId =>
    .csv (download_csv (db.results jobId)) ("blast_results_" ++ jobId ++ ".csv")

/-! ## Concrete instances used by the claim theorems and their witnesses -/

/-- A status service that never reaches a terminal state. -/
def alwaysOther : Nat → PollResp := fun _ => PollResp.other

/-- Oracle for an accession whose fetch and submit succeed and whose status
service answers `Status=FAILED` on the third check. -/
def envFailedThird : AccEnv :=
  { fetchFasta := .ok ">sp P01308",
    submitBlast := .ok "RID-1",
    pollSvc := fun k => if k = 2 then .failed else .other,
    fetchResult := .error "unused",
    geneResp := .error "unused" }

/-- Oracle for an accession whose `fetch_fasta` raises. -/
def envFetchFail : AccEnv :=
  { fetchFasta := .error "Failed to fetch FASTA for BAD1",
    submitBlast := .ok "RID-2",
    pollSvc := alwaysOther,
    fetchResult := .error "unused",
    geneResp := .error "unused" }

/-- Oracle for an accession that completes with `NO_HITS` on the first
status check. -/
def envNoHits : AccEnv :=
  { fetchFasta := .ok ">sp GOOD1",
    submitBlast := .ok "RID-3",
    pollSvc := fun _ => .ready false,
    fetchResult := .error "unused",
    geneResp := .error "unused" }

/-- Oracle for an accession whose `fetch_fasta` raises with an error text
that contains a comma. -/
def envCommaErr : AccEnv :=
  { fetchFasta := .error "boom, server exploded",
    submitBlast := .ok "RID-4",
    pollSvc := alwaysOther,
    fetchResult := .error "unused",
    geneResp := .error "unused" }

/-- A result payload whose single hit has description
"some protein [Danio rerio]", bit score 123.5 and e-value 1e-50. -/
def payloadDanio : Element :=
  .mk "BlastOutput" none
    [.mk "BlastOutput_iterations" none
      [.mk "Iteration" none
        [.mk "Iteration_hits" none
          [.mk "Hit" none
            [.mk "Hit_accession" (some "XP_123") [],
              .mk "Hit_def" (some "some protein [Danio rerio]") [],
              .mk "Hit_hsps" none
                [.mk "Hsp" none
                  [.mk "Hsp_bit-score" (some "123.5") [],
                    .mk "Hsp_evalue" (some "1e-50") []]]]]]]]

/-- A well-formed result payload with zero hit elements. -/
def payloadNoHits : Element :=
  .mk "BlastOutput" none
    [.mk "BlastOutput_iterations" none
      [.mk "Iteration" none
        [.mk "Iteration_hits" none []]]]

/-- A result payload whose single hit carries no scoring sub-record at
all (no `Hsp` descendant). -/
def payloadNoHsp : Element :=
  .mk "BlastOutput" none
    [.mk "Iteration_hits" none
      [.mk "Hit" none
        [.mk "Hit_accession" (some "YP_9") [],
          .mk "Hit_def" (some "hypothetical protein") []]]]

/-- A result payload whose single hit has an `Hsp` scoring sub-record that
lacks both the bit-score and the e-value fields. -/
def payloadEmptyHsp : Element :=
  .mk "BlastOutput" none
    [.mk "Iteration_hits" none
      [.mk "Hit" none
        [.mk "Hit_accession" (some "YP_9") [],
          .mk "Hit_def" (some "hypothetical protein") [],
          .mk "Hit_hsps" none [.mk "Hsp" none []]]]]

/-- Trace of a one-accession job (fetch failure) with every store write
succeeding. -/
def c2Trace : List DbState :=
  (run_blast_job (fun _ => true) 900 [("BAD1", envFetchFail)] 1).getD []

/-- Trace of a one-accession job that completes `NO_HITS`. -/
def c3Trace : List DbState :=
  (run_blast_job (fun _ => true) 900 [("GOOD1", envNoHits)] 2).getD []

/-- The two-accession batch of the C4 witness: the first accession's fetch
fails, the second completes `NO_HITS`. -/
def c4Pairs : List (String × AccEnv) :=
  [("BAD1", envFetchFail), ("GOOD1", envNoHits)]

/-- Trace of the `c4Pairs` job with every store write succeeding. -/
def c4Trace : List DbState :=
  (run_blast_job (fun _ => true) 900 c4Pairs 2).getD []

/-! ## Helper lemmas -/

/-- With a positive budget `m` and a status service that never answers with a
terminal state, the poll loop returns `TIMEOUT` at the first iteration whose
elapsed wait exceeds `m`. -/
lemma waitForBlastAux_timeout_of_no_terminal (svc : Nat → PollResp)
    (hsvc : ∀ k, svc k = PollResp.other) (m : Nat) (hm : 0 < m) :
    ∀ n k, m < 8 * (k + n) → (∀ j, j < n → ¬ m < 8 * (k + j)) →
      waitForBlastAux svc (some m) k (n + 1) =
        some (WaitResult.finished BlastStatus.TIMEOUT (8 * (k + n))) := by
  intro n
  induction n with
  | zero =>
    intro k h1 _
    conv_lhs => rw [waitForBlastAux]
    rw [if_pos ⟨hm, by simpa using h1⟩]
    norm_num
  | succ n ih =>
    intro k h1 h2
    have hk : ¬ m < 8 * k := by
      have := h2 0 (Nat.succ_pos n)
      simpa using this
    have hstep : waitForBlastAux svc (some m) k (n + 1 + 1) =
        waitForBlastAux svc (some m) (k + 1) (n + 1) := by
      conv_lhs => rw [waitForBlastAux]
      rw [if_neg (fun hc => hk hc.2), hsvc k]
    have h1a : m < 8 * ((k + 1) + n) := by omega
    have h2a : ∀ j, j < n → ¬ m < 8 * ((k + 1) + j) := by
      intro j hj hlt
      exact h2 (j + 1) (by omega) (by omega)
    rw [hstep, ih (k + 1) h1a h2a]
    have heq : (k + 1) + n = k + (n + 1) := by omega
    rw [heq]

/-- Whenever the poll loop returns `TIMEOUT`, the elapsed wait at the moment
of return strictly exceeds the budget (whatever the status service does). -/
lemma waitForBlastAux_timeout_lower (svc : Nat → PollResp) (m : Nat) :
    ∀ fuel k e, waitForBlastAux svc (some m) k fuel =
        some (WaitResult.finished BlastStatus.TIMEOUT e) → m < e := by
  intro fuel
  induction fuel with
  | zero => intro k e h; simp [waitForBlastAux] at h
  | succ fuel ih =>
    intro k e h
    simp only [waitForBlastAux] at h
    by_cases hc : 0 < m ∧ m < 8 * k
    · rw [if_pos hc] at h
      simp only [Option.some.injEq, WaitResult.finished.injEq] at h
      omega
    · rw [if_neg hc] at h
      cases hsv : svc k with
      | ready hits =>
        rw [hsv] at h
        cases hits <;> simp at h
      | failed => rw [hsv] at h; simp at h
      | other => rw [hsv] at h; exact ih (k + 1) e h

/-- `pRec` is monotone in the number of finished accessions. -/
lemma pRec_mono (total : Nat) {a b : Nat} (h : a ≤ b) :
    pRec a total ≤ pRec b total :=
  Nat.div_le_div_right (Nat.mul_le_mul_right _ h)

/-- A progress value written for `i ≤ total` finished accessions is at most
100. -/
lemma pRec_le_100 {i total : Nat} (h : i ≤ total) : pRec i total ≤ 100 := by
  unfold pRec
  have h2 : i * 100 / total ≤ total * 100 / total :=
    Nat.div_le_div_right (Nat.mul_le_mul_right _ h)
  rcases Nat.eq_zero_or_pos total with h0 | h0
  · subst h0
    simp
  · have h3 : total * 100 / total = 100 := by
      rw [Nat.mul_comm, Nat.mul_div_assoc 100 (dvd_refl total), Nat.div_self h0,
        Nat.mul_one]
    omega

/-- Progress is non-decreasing along every trace the accession loop
produces, whatever the write mask does. -/
lemma runJobLoop_chain (wmask : Nat → Bool) (wt : Option Nat)
    (fuel total : Nat) :
    ∀ pairs i s tr, runJobLoop wmask wt fuel total pairs i s = some tr →
      i + pairs.length = total → s.job.progress ≤ pRec i total →
      List.Chain' (fun a b => a.job.progress ≤ b.job.progress) (s :: tr) := by
  intro pairs
  induction pairs with
  | nil =>
    intro i s tr h htot hs
    have hi : i = total := by simpa using htot
    simp only [runJobLoop] at h
    cases hw : wmask (total + 1) with
    | true =>
      simp only [hw, reduceIte, Option.some.injEq] at h
      subst h
      refine List.chain'_cons.mpr ⟨?_, List.chain'_singleton _⟩
      subst hi
      exact le_trans hs (pRec_le_100 (le_refl i))
    | false =>
      simp only [hw, reduceIte, Option.some.injEq] at h
      subst h
      exact List.chain'_cons.mpr ⟨le_refl _, List.chain'_singleton _⟩
  | cons p rest ih =>
    obtain ⟨acc, env⟩ := p
    intro i s tr h htot hs
    have htot2 : (i + 1) + rest.length = total := by
      simp only [List.length_cons] at htot
      omega
    simp only [runJobLoop] at h
    cases hp : processAccession wt fuel env with
    | none => rw [hp] at h; simp at h
    | some r =>
      simp only [hp] at h
      cases hw : wmask (i + 1) with
      | true =>
        simp only [hw, reduceIte] at h
        cases hl : runJobLoop wmask wt fuel total rest (i + 1)
            ⟨⟨s.job.status, pRec (i + 1) total⟩, s.results ++ [(acc, r)]⟩ with
        | none => rw [hl] at h; simp at h
        | some tr0 =>
          rw [hl] at h
          simp only [Option.map_some', Option.some.injEq] at h
          subst h
          refine List.chain'_cons.mpr ⟨?_, ?_⟩
          · exact le_trans hs (pRec_mono total (Nat.le_succ i))
          · exact ih (i + 1) _ tr0 hl htot2 (le_refl _)
      | false =>
        simp only [hw, Bool.false_eq_true, if_false] at h
        cases hl : runJobLoop wmask wt fuel total rest (i + 1) s with
        | none => rw [hl] at h; simp at h
        | some tr0 =>
          rw [hl] at h
          simp only [Option.map_some', Option.some.injEq] at h
          subst h
          refine List.chain'_cons.mpr ⟨le_refl _, ?_⟩
          exact ih (i + 1) s tr0 hl htot2
            (le_trans hs (pRec_mono total (Nat.le_succ i)))

/-- Along every loop trace started with a RUNNING job row, any state whose
status is DONE has progress 100: the only write that sets DONE is the final
one, which also writes 100. -/
lemma runJobLoop_done_100 (wmask : Nat → Bool) (wt : Option Nat)
    (fuel total : Nat) :
    ∀ pairs i s tr, runJobLoop wmask wt fuel total pairs i s = some tr →
      s.job.status = JobStatus.RUNNING →
      ∀ x ∈ tr, x.job.status = JobStatus.DONE → x.job.progress = 100 := by
  intro pairs
  induction pairs with
  | nil =>
    intro i s tr h hs x hx hd
    simp only [runJobLoop] at h
    cases hw : wmask (total + 1) with
    | true =>
      simp only [hw, reduceIte, Option.some.injEq] at h
      subst h
      simp only [List.mem_singleton] at hx
      subst hx
      rfl
    | false =>
      simp only [hw, reduceIte, Option.some.injEq] at h
      subst h
      simp only [List.mem_singleton] at hx
      subst hx
      rw [hs] at hd
      cases hd
  | cons p rest ih =>
    obtain ⟨acc, env⟩ := p
    intro i s tr h hs x hx hd
    simp only [runJobLoop] at h
    cases hp : processAccession wt fuel env with
    | none => rw [hp] at h; simp at h
    | some r =>
      simp only [hp] at h
      cases hw : wmask (i + 1) with
      | true =>
        simp only [hw, reduceIte] at h
        cases hl : runJobLoop wmask wt fuel total rest (i + 1)
            ⟨⟨s.job.status, pRec (i + 1) total⟩, s.results ++ [(acc, r)]⟩ with
        | none => rw [hl] at h; simp at h
        | some tr0 =>
          rw [hl] at h
          simp only [Option.map_some', Option.some.injEq] at h
          subst h
          rcases List.mem_cons.mp hx with rfl | hx0
          · rw [hs] at hd
            cases hd
          · exact ih (i + 1) _ tr0 hl hs x hx0 hd
      | false =>
        simp only [hw, Bool.false_eq_true, if_false] at h
        cases hl : runJobLoop wmask wt fuel total rest (i + 1) s with
        | none => rw [hl] at h; simp at h
        | some tr0 =>
          rw [hl] at h
          simp only [Option.map_some', Option.some.injEq] at h
          subst h
          rcases List.mem_cons.mp hx with rfl | hx0
          · rw [hs] at hd
            cases hd
          · exact ih (i + 1) s tr0 hl hs x hx0 hd

/-- The per-accession records of a batch, in order: `some` exactly when
every accession's pipeline terminates. -/
def accRecords (wt : Option Nat) (fuel : Nat) :
    List (String × AccEnv) → Option (List (String × RecFields))
  | [] => some []
  | (a, env) :: rest =>
    match processAccession wt fuel env with
    | none => none
    | some r =>
      match accRecords wt fuel rest with
      | none => none
      | some rs => some ((a, r) :: rs)

/-- With every store write succeeding, the loop's final state is the DONE
write with progress 100, and its result rows are the incoming rows followed
by one record per accession, in order. -/
lemma runJobLoop_allok (wt : Option Nat) (fuel total : Nat) :
    ∀ pairs i s tr,
      runJobLoop (fun _ => true) wt fuel total pairs i s = some tr →
      ∃ recs, accRecords wt fuel pairs = some recs ∧
        tr.getLast? = some ⟨⟨JobStatus.DONE, 100⟩, s.results ++ recs⟩ := by
  intro pairs
  induction pairs with
  | nil =>
    intro i s tr h
    simp only [runJobLoop, reduceIte, Option.some.injEq] at h
    subst h
    exact ⟨[], rfl, by simp⟩
  | cons p rest ih =>
    obtain ⟨a, env⟩ := p
    intro i s tr h
    simp only [runJobLoop] at h
    cases hp : processAccession wt fuel env with
    | none => rw [hp] at h; simp at h
    | some r =>
      simp only [hp, reduceIte] at h
      cases hl : runJobLoop (fun _ => true) wt fuel total rest (i + 1)
          ⟨⟨s.job.status, pRec (i + 1) total⟩, s.results ++ [(a, r)]⟩ with
      | none => rw [hl] at h; simp at h
      | some tr0 =>
        rw [hl] at h
        simp only [Option.map_some', Option.some.injEq] at h
        subst h
        obtain ⟨recs0, hrecs0, hlast0⟩ := ih (i + 1) _ tr0 hl
        refine ⟨(a, r) :: recs0, ?_, ?_⟩
        · simp only [accRecords, hp, hrecs0]
        · cases tr0 with
          | nil => simp at hlast0
          | cons b l =>
            rw [List.getLast?_cons_cons, hlast0]
            simp [List.append_assoc]

/-- `accRecords` pairs each position with its accession's record. -/
lemma accRecords_spec (wt : Option Nat) (fuel : Nat) :
    ∀ pairs recs, accRecords wt fuel pairs = some recs →
      recs.length = pairs.length ∧
        ∀ (j : Nat) (p : String × AccEnv), pairs[j]? = some p →
          ∃ r, processAccession wt fuel p.2 = some r ∧ recs[j]? = some (p.1, r) := by
  intro pairs
  induction pairs with
  | nil =>
    intro recs h
    simp only [accRecords, Option.some.injEq] at h
    subst h
    exact ⟨rfl, by intro j p hp; simp at hp⟩
  | cons q rest ih =>
    obtain ⟨a, env⟩ := q
    intro recs h
    simp only [accRecords] at h
    cases hp : processAccession wt fuel env with
    | none => rw [hp] at h; simp at h
    | some r =>
      simp only [hp] at h
      cases hrest : accRecords wt fuel rest with
      | none => rw [hrest] at h; simp at h
      | some rs =>
        simp only [hrest, Option.some.injEq] at h
        subst h
        obtain ⟨hlen, hidx⟩ := ih rs hrest
        refine ⟨by simpa using hlen, ?_⟩
        intro j p hp2
        cases j with
        | zero =>
          simp only [List.getElem?_cons_zero, Option.some.injEq] at hp2
          subst hp2
          exact ⟨r, hp, by simp⟩
        | succ j =>
          simp only [List.getElem?_cons_succ] at hp2 ⊢
          exact hidx j p hp2

/-- When `fetch_fasta` raises, or `fetch_fasta` succeeds and `submit_blast`
raises, the accession's record is the ERROR record of the exception text. -/
lemma processAccession_fail (wt : Option Nat) (fuel : Nat) (env : AccEnv)
    (e : String)
    (hfail : env.fetchFasta = Except.error e ∨
      (∃ f, env.fetchFasta = Except.ok f ∧ env.submitBlast = Except.error e)) :
    processAccession wt fuel env = some (errRec e) := by
  rcases hfail with hf | ⟨f, hf, hsub⟩
  · simp [processAccession, hf]
  · simp [processAccession, hf, hsub]

/-! ## The claims -/

/-- C1.  Claim (from the spec): with a poll budget of zero the poll loop
waits unboundedly; an accession whose status service returns FAILED on the
third check gets the all-"NA" record within 3 poll cycles, never TIMEOUT and
never ERROR.  The code disagrees with the spec and with `wait_for_blast`'s
own docstring ("Set to 0 for no timeout"): `run_blast_job` converts
`timeout == 0` to `None` (`waitTimeoutArg`), and `wait_for_blast` then
evaluates `None > 0`, a Python 3 `TypeError`, which the per-accession
handler records as an ERROR row.  This theorem evaluates the code at the
failing input: the stored record is the ERROR record of the `TypeError`
text, not the all-"NA" record — while passing the budget 0 itself (as the
docstring intends) would return FAILED on the third check (elapsed 24) and
record all-"NA". -/
theorem claim_C1_timeout_zero_bug :
    waitTimeoutArg 0 = none ∧
      run_blast_job (fun _ => true) 0 [("ACC1", envFailedThird)] 5 =
        some [⟨⟨.RUNNING, 0⟩, []⟩, ⟨⟨.RUNNING, 0⟩, []⟩,
          ⟨⟨.RUNNING, 100⟩, [("ACC1", errRec typeErrorMsg)]⟩,
          ⟨⟨.DONE, 100⟩, [("ACC1", errRec typeErrorMsg)]⟩] ∧
      errRec typeErrorMsg ≠ naRec ∧
      wait_for_blast envFailedThird.pollSvc (some 0) 5 =
        some (.finished .FAILED 24) ∧
      processAccession (some 0) 5 envFailedThird = some naRec :=
  ⟨rfl, by decide, by decide, by decide, by decide⟩

/-- C2 (amended).  Along every job-store trace the runner produces, the
recorded progress is monotonically non-decreasing, and DONE status implies
progress 100; the converse fails (see the counterexample): after the final
accession’s progress write the job shows progress 100 with status still
RUNNING, until the separate DONE write. -/
theorem claim_C2_progress (wmask : Nat → Bool) (timeout : Nat)
    (pairs : List (String × AccEnv)) (fuel : Nat) (tr : List DbState)
    (h : run_blast_job wmask timeout pairs fuel = some tr) :
    List.Chain' (fun a b => a.job.progress ≤ b.job.progress) tr ∧
      ∀ x ∈ tr, x.job.status = JobStatus.DONE → x.job.progress = 100 := by
  simp only [run_blast_job] at h
  cases hw : wmask 0 with
  | false =>
    simp only [hw, Bool.false_eq_true, if_false, Option.some.injEq] at h
    subst h
    refine ⟨List.chain'_singleton _, ?_⟩
    intro x hx hd
    simp only [List.mem_singleton] at hx
    subst hx
    exact absurd hd (by decide)
  | true =>
    simp only [hw, reduceIte] at h
    cases hl : runJobLoop wmask (waitTimeoutArg timeout) fuel pairs.length pairs 0
        ⟨⟨JobStatus.RUNNING, 0⟩, []⟩ with
    | none => rw [hl] at h; simp at h
    | some tr0 =>
      rw [hl] at h
      simp only [Option.map_some', Option.some.injEq] at h
      subst h
      constructor
      · refine List.chain'_cons.mpr ⟨le_refl _, ?_⟩
        exact runJobLoop_chain wmask (waitTimeoutArg timeout) fuel pairs.length
          pairs 0 _ tr0 hl (by simp) (by simp [pRec])
      · intro x hx hd
        rcases List.mem_cons.mp hx with rfl | hx1
        · exact absurd hd (by decide)
        rcases List.mem_cons.mp hx1 with rfl | hx2
        · exact absurd hd (by decide)
        · exact runJobLoop_done_100 wmask (waitTimeoutArg timeout) fuel
            pairs.length pairs 0 _ tr0 hl rfl x hx2 hd

/-- C2, counterexample to the claim as stated: on the trace of a concrete
one-accession job with every write succeeding, "progress = 100 implies
status DONE" is false — the state right after the accession’s progress
write has progress 100 and status RUNNING. -/
theorem claim_C2_counterexample :
    ¬ (∀ x ∈ c2Trace, x.job.progress = 100 → x.job.status = JobStatus.DONE) := by
  decide

/-- C2, witness: the amended theorem applied to the concrete one-accession
job trace. -/
theorem claim_C2_witness :
    List.Chain' (fun a b => a.job.progress ≤ b.job.progress) c2Trace ∧
      ∀ x ∈ c2Trace, x.job.status = JobStatus.DONE → x.job.progress = 100 :=
  claim_C2_progress (fun _ => true) 900 [("BAD1", envFetchFail)] 1 c2Trace
    (by decide)

/-- C3.  For every job batch, if every job-store write succeeds and the run
terminates, the final job-store state has status DONE and exactly one
ResultRecord per submitted accession. -/
theorem claim_C3_done_count (timeout fuel : Nat)
    (pairs : List (String × AccEnv)) (tr : List DbState)
    (h : run_blast_job (fun _ => true) timeout pairs fuel = some tr) :
    ∃ s, tr.getLast? = some s ∧ s.job.status = JobStatus.DONE ∧
      s.results.length = pairs.length := by
  simp only [run_blast_job, reduceIte] at h
  cases hl : runJobLoop (fun _ => true) (waitTimeoutArg timeout) fuel
      pairs.length pairs 0 ⟨⟨JobStatus.RUNNING, 0⟩, []⟩ with
  | none => rw [hl] at h; simp at h
  | some tr0 =>
    rw [hl] at h
    simp only [Option.map_some', Option.some.injEq] at h
    subst h
    obtain ⟨recs, hrecs, hlast⟩ :=
      runJobLoop_allok (waitTimeoutArg timeout) fuel pairs.length pairs 0 _ tr0 hl
    have hlen := (accRecords_spec (waitTimeoutArg timeout) fuel pairs recs hrecs).1
    refine ⟨⟨⟨JobStatus.DONE, 100⟩, recs⟩, ?_, rfl, by simpa using hlen⟩
    cases tr0 with
    | nil => simp at hlast
    | cons b l =>
      rw [List.getLast?_cons_cons, List.getLast?_cons_cons]
      simpa using hlast

/-- C3, witness: the theorem applied to a concrete one-accession job that
completes NO_HITS with all writes succeeding. -/
theorem claim_C3_witness :
    ∃ s, c3Trace.getLast? = some s ∧ s.job.status = JobStatus.DONE ∧
      s.results.length = 1 :=
  claim_C3_done_count 900 2 [("GOOD1", envNoHits)] c3Trace (by decide)

/-- C4.  If accession k’s fetch step raises (or its fetch succeeds and its
submit raises) with text `e`, then — with all store writes succeeding and a
terminating run — the final state holds exactly one record at position k,
the ERROR record with species = `e`, the total record count still equals the
batch size, and every position (k+1 included) has a record for its own
accession. -/
theorem claim_C4_error_isolated (timeout fuel k : Nat)
    (pairs : List (String × AccEnv)) (acc : String) (env : AccEnv) (e : String)
    (tr : List DbState)
    (hk : pairs[k]? = some (acc, env))
    (hfail : env.fetchFasta = Except.error e ∨
      (∃ f, env.fetchFasta = Except.ok f ∧ env.submitBlast = Except.error e))
    (h : run_blast_job (fun _ => true) timeout pairs fuel = some tr) :
    ∃ s, tr.getLast? = some s ∧
      s.results[k]? = some (acc, errRec e) ∧
      s.results.length = pairs.length ∧
      ∀ (j : Nat) (p : String × AccEnv), pairs[j]? = some p →
        ∃ r, s.results[j]? = some (p.1, r) := by
  simp only [run_blast_job, reduceIte] at h
  cases hl : runJobLoop (fun _ => true) (waitTimeoutArg timeout) fuel
      pairs.length pairs 0 ⟨⟨JobStatus.RUNNING, 0⟩, []⟩ with
  | none => rw [hl] at h; simp at h
  | some tr0 =>
    rw [hl] at h
    simp only [Option.map_some', Option.some.injEq] at h
    subst h
    obtain ⟨recs, hrecs, hlast⟩ :=
      runJobLoop_allok (waitTimeoutArg timeout) fuel pairs.length pairs 0 _ tr0 hl
    obtain ⟨hlen, hidx⟩ :=
      accRecords_spec (waitTimeoutArg timeout) fuel pairs recs hrecs
    refine ⟨⟨⟨JobStatus.DONE, 100⟩, recs⟩, ?_, ?_, by simpa using hlen, ?_⟩
    · cases tr0 with
      | nil => simp at hlast
      | cons b l =>
        rw [List.getLast?_cons_cons, List.getLast?_cons_cons]
        simpa using hlast
    · obtain ⟨r, hr, hrk⟩ := hidx k (acc, env) hk
      have hre : r = errRec e :=
        (Option.some.inj
          ((processAccession_fail (waitTimeoutArg timeout) fuel env e
            hfail).symm.trans hr)).symm
      rw [hre] at hrk
      simpa using hrk
    · intro j p hp
      obtain ⟨r, _, hrj⟩ := hidx j p hp
      exact ⟨r, hrj⟩

/-- C4, witness: a two-accession batch whose first accession’s fetch raises;
the first record is the ERROR record, and both accessions have records. -/
theorem claim_C4_witness :
    ∃ s, c4Trace.getLast? = some s ∧
      s.results[0]? = some ("BAD1", errRec "Failed to fetch FASTA for BAD1") ∧
      s.results.length = 2 ∧
      ∀ (j : Nat) (p : String × AccEnv), c4Pairs[j]? = some p →
        ∃ r, s.results[j]? = some (p.1, r) :=
  claim_C4_error_isolated 900 2 0 c4Pairs "BAD1" envFetchFail
    "Failed to fetch FASTA for BAD1" c4Trace rfl (Or.inl rfl) (by decide)

/-- C5.  For every positive budget B, against a status service that never
reaches a terminal state the poll loop terminates (fuel B/8 + 2 suffices)
and returns TIMEOUT with elapsed wait 8*(B/8 + 1) > B; and every TIMEOUT
return, from any iteration and fuel, happens strictly after B time units —
never before the budget is exhausted. -/
theorem claim_C5_timeout_bound (B : Nat) (hB : 0 < B) (svc : Nat → PollResp)
    (hsvc : ∀ k, svc k = PollResp.other) :
    wait_for_blast svc (some B) (B / 8 + 1 + 1) =
        some (WaitResult.finished BlastStatus.TIMEOUT (8 * (B / 8 + 1))) ∧
      ∀ fuel k e, waitForBlastAux svc (some B) k fuel =
          some (WaitResult.finished BlastStatus.TIMEOUT e) → B < e := by
  constructor
  · have h1 : B < 8 * (0 + (B / 8 + 1)) := by omega
    have h2 : ∀ j, j < B / 8 + 1 → ¬ B < 8 * (0 + j) := by
      intro j hj hlt
      omega
    have h3 := waitForBlastAux_timeout_of_no_terminal svc hsvc B hB
      (B / 8 + 1) 0 h1 h2
    simpa [wait_for_blast] using h3
  · exact fun fuel k e h => waitForBlastAux_timeout_lower svc B fuel k e h

/-- C5, witness: budget 5 against the never-terminal service times out with
elapsed 8 (the first check past the budget), which is at least 5. -/
theorem claim_C5_witness :
    wait_for_blast alwaysOther (some 5) (5 / 8 + 1 + 1) =
      some (WaitResult.finished BlastStatus.TIMEOUT (8 * (5 / 8 + 1))) :=
  (claim_C5_timeout_bound 5 (by decide) alwaysOther (fun _ => rfl)).1

/-- C6.  The parser returns ("NA","NA","NA","NA") on every payload with no
Hit element; on the concrete payload whose hit description is
"some protein [Danio rerio]" it extracts species "Danio rerio" together with
the accession and the first Hsp’s bit score and e-value; in general the
species field is the first bracketed substring of the first hit’s
description with default "NA"; the bracket scan itself maps
"some protein [Danio rerio]" to "Danio rerio"; and the bit score and
e-value come from the first scoring sub-record of the first hit with "NA"
when absent: both are "NA" when the hit has no Hsp descendant, in general
they are the first Hsp’s field texts with default "NA" each, and the
concrete no-Hsp and empty-Hsp payloads both parse with "NA" scores. -/
theorem claim_C6_parse_top_hit :
    (∀ root : Element, findFirst "Hit" root.children = none →
        parse_top_hit root = ("NA", "NA", "NA", "NA")) ∧
      parse_top_hit payloadDanio = ("XP_123", "Danio rerio", "123.5", "1e-50") ∧
      (∀ root hit, findFirst "Hit" root.children = some hit →
        (parse_top_hit root).2.1 =
          (extractBracket (findText hit "Hit_def" "").toList).getD "NA") ∧
      extractBracket "some protein [Danio rerio]".toList = some "Danio rerio" ∧
      (∀ root hit, findFirst "Hit" root.children = some hit →
        findFirst "Hsp" hit.children = none →
        (parse_top_hit root).2.2 = ("NA", "NA")) ∧
      (∀ root hit hsp, findFirst "Hit" root.children = some hit →
        findFirst "Hsp" hit.children = some hsp →
        (parse_top_hit root).2.2 =
          (findText hsp "Hsp_bit-score" "NA", findText hsp "Hsp_evalue" "NA")) ∧
      parse_top_hit payloadNoHsp = ("YP_9", "NA", "NA", "NA") ∧
      parse_top_hit payloadEmptyHsp = ("YP_9", "NA", "NA", "NA") := by
  refine ⟨?_, by decide, ?_, by decide, ?_, ?_, by decide, by decide⟩
  · intro root hnone
    simp only [parse_top_hit, hnone]
  · intro root hit hsome
    simp only [parse_top_hit, hsome]
    cases hHsp : findFirst "Hsp" hit.children <;> simp [hHsp]
  · intro root hit hsome hnohsp
    simp [parse_top_hit, hsome, hnohsp]
  · intro root hit hsp hsome hhsp
    simp [parse_top_hit, hsome, hhsp]

/-- C6, witness: the no-hit clause applied to the concrete zero-hit
payload. -/
theorem claim_C6_witness :
    parse_top_hit payloadNoHits = ("NA", "NA", "NA", "NA") :=
  claim_C6_parse_top_hit.1 payloadNoHits rfl

/-- C7.  `fetch_gene_symbol` is a total function of the response oracle (the
whole Python body is inside try/except returning "NA"), and it returns "NA"
on every raised request and on every response without an extractable gene
capture; in every other case it returns the captured gene symbol. -/
theorem claim_C7_gene_symbol (resp : Except String String) :
    (∀ e, resp = Except.error e → fetch_gene_symbol resp = "NA") ∧
      (∀ t, resp = Except.ok t → extractGene t.toList = none →
        fetch_gene_symbol resp = "NA") ∧
      (fetch_gene_symbol resp = "NA" ∨
        ∃ t g, resp = Except.ok t ∧ extractGene t.toList = some g ∧
          fetch_gene_symbol resp = g) := by
  refine ⟨?_, ?_, ?_⟩
  · intro e he
    subst he
    rfl
  · intro t ht hng
    subst ht
    have hng2 : extractGene t.data = none := hng
    simp [fetch_gene_symbol, hng2]
  · cases resp with
    | error e => exact Or.inl rfl
    | ok t =>
      cases hg : extractGene t.toList with
      | none =>
        have hg2 : extractGene t.data = none := hg
        exact Or.inl (by simp [fetch_gene_symbol, hg2])
      | some g =>
        have hg2 : extractGene t.data = some g := hg
        exact Or.inr ⟨t, g, rfl, hg, by simp [fetch_gene_symbol, hg2]⟩

/-- C7, witness: a raised request yields "NA". -/
theorem claim_C7_witness :
    fetch_gene_symbol (Except.error "connection timed out") = "NA" :=
  (claim_C7_gene_symbol (Except.error "connection timed out")).1
    "connection timed out" rfl

/-- C8.  The CSV export is the fixed header line followed by exactly one
line per stored row; a job with the single NO_HITS record for accession
"ACC" exports exactly the claimed two lines; and a row whose five annotation
columns are NULL renders them all as "NA". -/
theorem claim_C8_csv :
    (∀ rows : List CsvRow,
        download_csv rows = csvHeader ++ "\n" ++ String.join (rows.map csvLine) ∧
          (rows.map csvLine).length = rows.length) ∧
      download_csv [toCsvRow "ACC" noHitRec] =
        "accession,top_hit,gene,species,bit_score,evalue\nACC,No hit,No hit,No hit,No hit,No hit\n" ∧
      csvLine ⟨some "ACC2", none, none, none, none, none⟩ = "ACC2,NA,NA,NA,NA,NA\n" :=
  ⟨fun rows => ⟨rfl, by simp⟩, by decide, by decide⟩

/-- C9.  The status, results and CSV read endpoints never read the caller’s
session: their response is literally the same function of the store and the
job id for any two sessions (logged in or not), so any caller who knows a
job id reads that job’s data. -/
theorem claim_C9_no_auth (s1 s2 : SessionState) (db : Db) (jobId : String) :
    statusEndpoint s1 db jobId = statusEndpoint s2 db jobId ∧
      resultsEndpoint s1 db jobId = resultsEndpoint s2 db jobId ∧
      downloadCsvEndpoint s1 db jobId = downloadCsvEndpoint s2 db jobId :=
  ⟨rfl, rfl, rfl⟩

/-- C10.  The runner stores an ERROR record whose species field is the raw
exception text, commas included; `download_csv` joins fields with bare
commas, so that row splits into 7 comma-separated fields against the
6-column header. -/
theorem claim_C10_csv_injection :
    processAccession (waitTimeoutArg 900) 1 envCommaErr =
        some (errRec "boom, server exploded") ∧
      (splitCommas (csvLine (toCsvRow "ACC"
        (errRec "boom, server exploded"))).toList).length = 7 ∧
      (splitCommas csvHeader.toList).length = 6 :=
  ⟨rfl, by decide, by decide⟩

end BlastApp
